import Mathlib

/-!
Verification development for the iso8601 library (src/iso8601.py).

This file gives a shallow embedding of the data model, the merge algebra,
the calendar arithmetic, the format representation compiler and the format
machine of src/iso8601.py, and proves the frozen claims about them.

Conventions of the embedding:
  * Python exceptions are an explicit error type PyErr; fallible code runs
    in Except PyErr.
  * Numeric unit values are Option Int: Option.none models the Python value
    None (the absent state), which is distinct from zero.  Decimal-valued
    (fractional) units never occur in any claim; the few places where the
    source can only produce a Decimal (fractional element reads) surface
    PyErr.notModelled instead of a value, and are unreachable from the
    formats the claims use.
  * Python division and modulus are floor based; for the positive moduli
    used by the source (12, 24, 60, 400 ...) these agree with Int.ediv and
    Int.emod, which we use throughout.
  * Loops whose bound is not structural take an explicit fuel argument and
    return PyErr.notModelled when it runs out; all claim instances are
    concrete and use ample fuel.
-/

set_option autoImplicit false

namespace Iso8601

/-- Python exceptions raised by the source, as an explicit error type. -/
inductive PyErr where
  /-- InvalidTimeUnit: a range violation when constructing an ordinal unit. -/
  | invalidTimeUnit
  /-- ValueError: accuracy-reduction violation or negative cardinal. -/
  | valueError (msg : String)
  /-- TypeError: an unsupported operand (NotImplemented surfaced by an operator). -/
  | typeError
  /-- StopFormat: raised by format operations to abort a format or read. -/
  | stopFormat (msg : String)
  /-- IndexError: list index out of range. -/
  | indexError
  /-- AttributeError: a representation has no element of the requested kind. -/
  | attributeError
  /-- KeyError: a missing table entry in the format representation parser. -/
  | keyError
  /-- AssertionError: a failed assert statement. -/
  | assertionError
  /-- StopIteration escaping an iterator protocol call. -/
  | stopIteration
  /-- Behaviour outside the modelled fragment (Decimal values, fuel exhaustion). -/
  | notModelled (msg : String)
deriving DecidableEq, Repr

/-- The Python classes of time units (src lines 40-230), one tag per class,
including the abstract Cardinal mixin used only in isinstance tests. -/
inductive UnitKind where
  | timeUnit | year | month | week | day | dayOfYear | dayOfMonth | dayOfWeek
  | hour | minute | second
  | cardinal | years | months | weeks | days | hours | minutes | seconds
  | recurrences
deriving DecidableEq, Repr

/-- The Python method resolution order of each unit class, most specific
first; isinstance(u, C) is membership of C in the MRO of the class of u. -/
def UnitKind.mro : UnitKind → List UnitKind
  | .timeUnit => [.timeUnit]
  | .year => [.year, .timeUnit]
  | .month => [.month, .timeUnit]
  | .week => [.week, .timeUnit]
  | .day => [.day, .timeUnit]
  | .dayOfYear => [.dayOfYear, .day, .timeUnit]
  | .dayOfMonth => [.dayOfMonth, .day, .timeUnit]
  | .dayOfWeek => [.dayOfWeek, .day, .timeUnit]
  | .hour => [.hour, .timeUnit]
  | .minute => [.minute, .timeUnit]
  | .second => [.second, .timeUnit]
  | .cardinal => [.cardinal, .timeUnit]
  | .years => [.years, .cardinal, .year, .timeUnit]
  | .months => [.months, .cardinal, .month, .timeUnit]
  | .weeks => [.weeks, .cardinal, .week, .timeUnit]
  | .days => [.days, .cardinal, .day, .timeUnit]
  | .hours => [.hours, .cardinal, .hour, .timeUnit]
  | .minutes => [.minutes, .cardinal, .minute, .timeUnit]
  | .seconds => [.seconds, .cardinal, .second, .timeUnit]
  | .recurrences => [.recurrences, .cardinal, .timeUnit]

/-- isinstance for unit values: the class of k is a subclass of t. -/
def UnitKind.isSub (k t : UnitKind) : Bool := k.mro.contains t

/-- A unit class constructed through Cardinal.__init__ (range checks off,
negative values rejected). -/
def UnitKind.isCardinalCls (k : UnitKind) : Bool := k.isSub .cardinal

/-- The class attribute range (inclusive bounds on the absolute value,
none meaning unbounded), from the class definitions in the source. -/
def UnitKind.range : UnitKind → Int × Option Int
  | .year => (0, some 9999)
  | .month => (1, some 12)
  | .week => (1, some 53)
  | .dayOfYear => (1, some 366)
  | .dayOfMonth => (1, some 31)
  | .dayOfWeek => (1, some 7)
  | .hour => (0, some 24)
  | .minute => (0, some 59)
  | .second => (0, some 60)
  | _ => (0, none)

/-- TimeUnit.isvalid for a present integer value. -/
def UnitKind.inRange (k : UnitKind) (v : Int) : Bool :=
  let a : Int := (v.natAbs : Int)
  match k.range with
  | (lo, some hi) => lo ≤ a && a ≤ hi
  | (lo, none) => lo ≤ a

/-- A time unit value: its class tag, its optional numeric value (none is
the Python None absent state) and the leading-sign flag (Python keeps the
sign string or None; only its truthiness is ever used). -/
structure TUnit where
  kind : UnitKind
  value : Option Int
  signed : Bool
deriving DecidableEq, Repr

/-- Python truthiness of a unit: TimeUnit.__nonzero__ is value is not None. -/
def TUnit.truthy (t : TUnit) : Bool := t.value.isSome

/-- TimeUnit.decimal coerced to int: the absent state reads as 0. -/
def TUnit.int (t : TUnit) : Int := t.value.getD 0

/-- Constructing a unit of class k from an int value (TimeUnit.__init__ /
Cardinal.__init__): cardinals reject negatives and skip range checks,
ordinals check the class range. -/
def unitNew (k : UnitKind) (v : Int) (signed : Bool) : Except PyErr TUnit :=
  if k.isCardinalCls then
    if v < 0 then throw (.valueError "invalid cardinal") else pure ⟨k, some v, signed⟩
  else
    if k.inRange v then pure ⟨k, some v, signed⟩ else throw .invalidTimeUnit

/-- Constructing a unit of class k from another unit (value and signed flag
are copied, then the checks of the target class run). -/
def unitFromUnit (k : UnitKind) (t : TUnit) : Except PyErr TUnit :=
  if k.isCardinalCls then
    -- Cardinal.__init__ evaluates (value < 0) via TimeUnit.__lt__; in
    -- Python 2 an absent value compares (None < 0) = True and is rejected.
    match t.value with
    | none => throw (.valueError "invalid cardinal")
    | some v => if v < 0 then throw (.valueError "invalid cardinal") else pure ⟨k, t.value, t.signed⟩
  else
    match t.value with
    | none => pure ⟨k, none, t.signed⟩
    | some v => if k.inRange v then pure ⟨k, t.value, t.signed⟩ else throw .invalidTimeUnit

/-- The identity unit (the module-level constant named unit in the source),
pushed by hard separators to block merges. -/
def identityUnit : TUnit := ⟨.timeUnit, none, false⟩

/-- The Python classes of time representations (concrete classes whose
instances occur at run time). -/
inductive RepKind where
  | calendarDate | ordinalDate | weekDate | utcOffset | utc | time
  | dateTime | duration | weeksDuration | timeInterval | recurringTimeInterval
deriving DecidableEq, Repr

/-- Representation classes as isinstance targets, including the abstract
ones (TimeRep, TimePoint, Date).  TimeDuration is omitted: its __new__
returns plain Duration instances, so no object is ever an instance of it. -/
inductive RepCls where
  | timeRepC | timePointC | dateC | calendarDateC | ordinalDateC | weekDateC
  | utcOffsetC | utcC | timeC | dateTimeC | durationC | weeksDurationC
  | timeIntervalC | recurringC
deriving DecidableEq, Repr

/-- The Python MRO of each concrete representation class. -/
def RepKind.mro : RepKind → List RepCls
  | .calendarDate => [.calendarDateC, .dateC, .timePointC, .timeRepC]
  | .ordinalDate => [.ordinalDateC, .dateC, .timePointC, .timeRepC]
  | .weekDate => [.weekDateC, .dateC, .timePointC, .timeRepC]
  | .utcOffset => [.utcOffsetC, .timePointC, .timeRepC]
  | .utc => [.utcC, .utcOffsetC, .timePointC, .timeRepC]
  | .time => [.timeC, .timePointC, .timeRepC]
  | .dateTime => [.dateTimeC, .dateC, .timeC, .timePointC, .timeRepC]
  | .duration => [.durationC, .timeRepC]
  | .weeksDuration => [.weeksDurationC, .durationC, .timeRepC]
  | .timeInterval => [.timeIntervalC, .dateTimeC, .dateC, .timeC, .timePointC, .timeRepC]
  | .recurringTimeInterval =>
      [.recurringC, .timeIntervalC, .dateTimeC, .dateC, .timeC, .timePointC, .timeRepC]

/-- isinstance for representation values. -/
def RepKind.isSub (k : RepKind) (t : RepCls) : Bool := k.mro.contains t

/-- The own class of a representation kind, as an isinstance target. -/
def RepKind.cls : RepKind → RepCls
  | .calendarDate => .calendarDateC
  | .ordinalDate => .ordinalDateC
  | .weekDate => .weekDateC
  | .utcOffset => .utcOffsetC
  | .utc => .utcC
  | .time => .timeC
  | .dateTime => .dateTimeC
  | .duration => .durationC
  | .weeksDuration => .weeksDurationC
  | .timeInterval => .timeIntervalC
  | .recurringTimeInterval => .recurringC

/-- A time value: either a unit or a representation (a class tag together
with its element list, which is what TimeRep instances consist of). -/
inductive Elem where
  | u (t : TUnit)
  | r (k : RepKind) (elements : List Elem)
deriving Repr

/-- Python truthiness of an element: units are truthy iff their value is
present; representation objects define no __nonzero__ and are always truthy. -/
def Elem.truthy : Elem → Bool
  | .u t => t.truthy
  | .r _ _ => true

/-- TimeRep.__iter__: flatten a value to its unit stream, recursing into
nested representations. -/
def Elem.flatten : Elem → List TUnit
  | .u t => [t]
  | .r _ es => flattenList es
where
  /-- Flattening of an element list. -/
  flattenList : List Elem → List TUnit
  | [] => []
  | e :: rest => e.flatten ++ flattenList rest

/-- Python equality of two units (TimeUnit.__eq__ with reflected fallback):
the values are compared only when one class is a subclass of the other. -/
def TUnit.pyEq (a b : TUnit) : Bool :=
  if b.kind.isSub a.kind then a.value == b.value
  else if a.kind.isSub b.kind then b.value == a.value
  else false

/-- Pairwise unit-list equality; Python map pads the shorter list with None
and eq(unit, None) is False, so unequal lengths compare unequal. -/
def unitsPyEq : List TUnit → List TUnit → Bool
  | [], [] => true
  | a :: as, b :: bs => a.pyEq b && unitsPyEq as bs
  | _, _ => false

/-- Python equality of two time values: TimeRep.__eq__ compares the
flattened unit streams elementwise. -/
def Elem.pyEq (a b : Elem) : Bool :=
  match a, b with
  | .u ua, .u ub => ua.pyEq ub
  | .r _ _, _ => unitsPyEq a.flatten b.flatten
  | .u _, .r _ _ => unitsPyEq b.flatten a.flatten

/-- The accuracy-reduction scan of TimeRep.__init__ (src lines 263-269):
walk the checked elements with an omitted flag; true means the check
passes. -/
def checkAccuracy : Bool → List Elem → Bool
  | _, [] => true
  | true, e :: rest => if e.truthy then false else checkAccuracy true rest
  | false, e :: rest => checkAccuracy (!e.truthy) rest

/-- The accuracy-reduction check as an exception, as TimeRep.__init__
raises it. -/
def checkReduction (es : List Elem) : Except PyErr Unit :=
  if checkAccuracy false es then pure ()
  else throw (.valueError "invalid date time accuracy reduction")

/-- An argument to a representation constructor: the Python callers pass
None, plain ints, units or representations. -/
inductive Arg where
  | none
  | int (n : Int)
  | elem (e : Elem)

/-- A coercion target of the units decorator: a unit class or a
representation class. -/
inductive EnsureCls where
  | uk (k : UnitKind)
  | rk (c : RepCls)

/-- ensure_class for a unit target: keep instances, otherwise construct a
unit of the class from the argument.  A representation argument reaches the
final else branch of TimeUnit.__init__ and raises InvalidTimeUnit. -/
def ensureUnit (a : Arg) (k : UnitKind) : Except PyErr Elem :=
  match a with
  | .none => pure (.u ⟨k, none, false⟩)
  | .int n => (unitNew k n false).map .u
  | .elem (.u t) => if t.kind.isSub k then pure (.u t) else (unitFromUnit k t).map .u
  | .elem (.r _ _) => throw .invalidTimeUnit

/-- UTCOffset.__init__ (hour, minute ensured, accuracy reduction checked). -/
def mkUTCOffset (hour minute : Arg) : Except PyErr Elem := do
  let h ← ensureUnit hour .hour
  let m ← ensureUnit minute .minute
  checkReduction [h, m]
  pure (.r .utcOffset [h, m])

/-- The module constant utc.  In the source UTC.__init__ stores the raw
ints (0, 0); no claim observes the difference, so we store the equivalent
units. -/
def utcConst : Elem := .r .utc [.u ⟨.hour, some 0, false⟩, .u ⟨.minute, some 0, false⟩]

/-- CalendarDate.__init__: units (Year, Month, Day), elements padded with
absent units, accuracy reduction checked. -/
def mkCalendarDate (args : List Arg) : Except PyErr Elem := do
  let es ← go args [UnitKind.year, .month, .day]
  checkReduction es
  pure (.r .calendarDate es)
where
  /-- map(ensure_class, args, units) with the Python 2 None padding. -/
  go : List Arg → List UnitKind → Except PyErr (List Elem)
  | _, [] => pure []
  | [], k :: ks => do pure ((← ensureUnit .none k) :: (← go [] ks))
  | a :: as, k :: ks => do pure ((← ensureUnit a k) :: (← go as ks))

/-- OrdinalDate.__init__: units (Year, Day). -/
def mkOrdinalDate (args : List Arg) : Except PyErr Elem := do
  let es ← mkCalendarDate.go args [UnitKind.year, .day]
  checkReduction es
  pure (.r .ordinalDate es)

/-- WeekDate.__init__: units (Year, Week, Day). -/
def mkWeekDate (args : List Arg) : Except PyErr Elem := do
  let es ← mkCalendarDate.go args [UnitKind.year, .week, .day]
  checkReduction es
  pure (.r .weekDate es)

/-- Date.__new__ dispatch: any DayOfYear argument builds an OrdinalDate,
any Week argument a WeekDate, otherwise a CalendarDate. -/
def mkDate (args : List Arg) : Except PyErr Elem :=
  let isInst := fun (k : UnitKind) (a : Arg) =>
    match a with
    | .elem (.u t) => t.kind.isSub k
    | _ => false
  if args.any (isInst .dayOfYear) then mkOrdinalDate args
  else if args.any (isInst .week) then mkWeekDate args
  else mkCalendarDate args

/-- Duration.__init__: units (Years, Months, Days, Hours, Minutes, Seconds). -/
def mkDuration (args : List Arg) : Except PyErr Elem := do
  let es ← mkCalendarDate.go args [UnitKind.years, .months, .days, .hours, .minutes, .seconds]
  checkReduction es
  pure (.r .duration es)

/-- WeeksDuration.__init__: units (Weeks,). -/
def mkWeeksDuration (weeks : Arg) : Except PyErr Elem := do
  let w ← ensureUnit weeks .weeks
  checkReduction [w]
  pure (.r .weeksDuration [w])

/-- ensure_class for a representation target: keep instances, construct
from None where a constructor caller relies on it, and surface the
InvalidTimeUnit that the unit coercions of other conversions raise. -/
def ensureRep (a : Arg) (c : RepCls) : Except PyErr Elem :=
  match a with
  | .elem (.r k es) => if k.isSub c then pure (.r k es) else conv a c
  | _ => conv a c
where
  /-- cls(obj) for the representation targets that occur in the decorators. -/
  conv (a : Arg) (c : RepCls) : Except PyErr Elem :=
    match c with
    | .utcOffsetC => mkUTCOffset a .none
    | .dateC => mkDate [a]
    | _ => throw (.notModelled "representation conversion")

/-- Time.__init__: hour, minute, second ensured as units, the offset
ensured as a UTCOffset; the offset is excluded from the accuracy check. -/
def mkTime (hour minute second offset : Arg) : Except PyErr Elem := do
  let h ← ensureUnit hour .hour
  let m ← ensureUnit minute .minute
  let s ← ensureUnit second .second
  let o ← ensureRep offset .utcOffsetC
  checkReduction [h, m, s]
  pure (.r .time [h, m, s, o])

/-- Time(None): the path ensure_class(None, Time) takes. -/
def mkEmptyTime : Except PyErr Elem := mkTime .none .none .none .none

/-- ensure_class for the Time target used by DateTime.__init__. -/
def ensureTime (a : Arg) : Except PyErr Elem :=
  match a with
  | .elem (.r k es) => if k.isSub .timeC then pure (.r k es) else throw (.notModelled "Time conversion")
  | .none => mkEmptyTime
  | _ => throw (.notModelled "Time conversion")

/-- DateTime.__init__: units (Date, Time). -/
def mkDateTime (date time : Arg) : Except PyErr Elem := do
  let d ← ensureRep date .dateC
  let t ← ensureTime time
  checkReduction [d, t]
  pure (.r .dateTime [d, t])

/-- TimeDuration.__new__: builds a Duration with zero date components in
front of the ensured time components. -/
def mkTimeDuration (args : List Arg) : Except PyErr Elem := do
  let hms ← mkCalendarDate.go args [UnitKind.hours, .minutes, .seconds]
  mkDuration ([Arg.int 0, Arg.int 0, Arg.int 0] ++ hms.map Arg.elem)

/-- TimeInterval.__init__: at most two endpoint elements, stored as given. -/
def mkTimeInterval (args : List Elem) : Except PyErr Elem := do
  if args.length > 2 then throw .assertionError
  checkReduction args
  pure (.r .timeInterval args)

/-- RecurringTimeInterval.__init__: units (Recurrences,); further arguments
pass through the units decorator unchanged. -/
def mkRecurringTimeInterval (args : List Arg) : Except PyErr Elem := do
  if args.length > 3 then throw .assertionError
  let es ← go args
  checkReduction es
  pure (.r .recurringTimeInterval es)
where
  /-- First argument coerced to Recurrences, the rest returned as they are
  (map pads the unit list with None and ensure_class(x, None) is x). -/
  go : List Arg → Except PyErr (List Elem)
  | [] => do pure [← ensureUnit .none .recurrences]
  | a :: rest => do
      let r ← ensureUnit a .recurrences
      let tail ← passThrough rest
      pure (r :: tail)
  /-- Arguments beyond the unit list must already be elements. -/
  passThrough : List Arg → Except PyErr (List Elem)
  | [] => pure []
  | .elem e :: rest => do pure (e :: (← passThrough rest))
  | _ :: _ => throw (.notModelled "raw python object as element")

/-- TimeRep.__getattr__ looked up with a unit class name: walk the element
list for a unit whose MRO carries the class, then recurse into nested
representations, skipping absent results there.  The fuel bounds the
nesting depth. -/
def getAttrUnit : Nat → Elem → UnitKind → Option TUnit
  | 0, _, _ => none
  | _ + 1, .u _, _ => none
  | fu + 1, .r _ es, k =>
    match firstPass es k with
    | some t => some t
    | none => secondPass fu es k
where
  /-- The first loop: a direct element whose class MRO carries the name. -/
  firstPass : List Elem → UnitKind → Option TUnit
  | [], _ => none
  | .u t :: rest, k => if t.kind.isSub k then some t else firstPass rest k
  | .r _ _ :: rest, k => firstPass rest k
  /-- The second loop: recurse into nested representations; a falsy
  attribute found there is skipped. -/
  secondPass : Nat → List Elem → UnitKind → Option TUnit
  | _, [], _ => none
  | fu, (.r rk res) :: rest, k =>
    match getAttrUnit fu (.r rk res) k with
    | some t => if t.truthy then some t else secondPass fu rest k
    | none => secondPass fu rest k
  | fu, (.u _) :: rest, k => secondPass fu rest k

/-- Attribute access raising AttributeError when nothing is found. -/
def attrU (e : Elem) (k : UnitKind) : Except PyErr TUnit :=
  match getAttrUnit 4 e k with
  | some t => pure t
  | none => throw .attributeError

/-- TimeRep.__getattr__ looked up with a representation class name (date,
time): only representation elements can match; recursion as above. -/
def getAttrRep : Nat → Elem → RepCls → Option Elem
  | 0, _, _ => none
  | _ + 1, .u _, _ => none
  | fu + 1, .r _ es, c =>
    match firstPass es c with
    | some e => some e
    | none => secondPass fu es c
where
  /-- The first loop over direct elements. -/
  firstPass : List Elem → RepCls → Option Elem
  | [], _ => none
  | .r rk res :: rest, c => if rk.isSub c then some (.r rk res) else firstPass rest c
  | .u _ :: rest, c => firstPass rest c
  /-- The second loop recursing into nested representations (representation
  attributes are always truthy, so no skipping can occur). -/
  secondPass : Nat → List Elem → RepCls → Option Elem
  | _, [], _ => none
  | fu, (.r rk res) :: rest, c =>
    match getAttrRep fu (.r rk res) c with
    | some e => some e
    | none => secondPass fu rest c
  | fu, (.u _) :: rest, c => secondPass fu rest c

/-- leap_year (src lines 365-368). -/
def leapYear (year : Int) : Bool :=
  year.emod 400 == 0 || (year.emod 4 == 0 && year.emod 100 != 0)

/-- The days table of days_in_month, copied verbatim from src lines
371-372 (note the 30 in the July slot). -/
def normalDaysTable : List Int := [31, 28, 31, 30, 31, 30, 30, 31, 30, 31, 30, 31]

/-- The leap-year days table of days_in_month (src line 372). -/
def leapDaysTable : List Int := [31, 29, 31, 30, 31, 30, 30, 31, 30, 31, 30, 31]

/-- days_in_month (src lines 370-377): IndexError outside 1..12, table
lookup keyed by leap_year otherwise. -/
def daysInMonth (year month : Int) : Except PyErr Int :=
  if 1 ≤ month ∧ month ≤ 12 then
    pure ((if leapYear year then leapDaysTable else normalDaysTable).getD (month - 1).toNat 0)
  else throw .indexError

/-- divmod_1 (src lines 379-382). -/
def divmod1 (a b : Int) : Int × Int := ((a - 1).ediv b, (a - 1).emod b + 1)

/-- The day-normalisation loop of CalendarDate.add_sub (src lines 420-427),
with fuel for the unbounded while. -/
def normalizeDay : Nat → Int → Int → Int → Except PyErr (Int × Int × Int)
  | 0, _, _, _ => throw (.notModelled "normalisation fuel exhausted")
  | fu + 1, year, month, day => do
    let dim ← daysInMonth year month
    if day > dim ∨ day < 1 then
      if day < 1 then
        let (c, m2) := divmod1 (month - 1) 12
        let dim2 ← daysInMonth year m2
        normalizeDay fu (year + c) m2 (day + dim2)
      else
        let (c, m2) := divmod1 (month + 1) 12
        normalizeDay fu (year + c) m2 (day - dim)
    else pure (year, month, day)

/-- isinstance(x, Duration). -/
def isDurationInst : Elem → Bool
  | .r k _ => k.isSub .durationC
  | .u _ => false

/-- CalendarDate.add_sub (src lines 398-430): years, then months with
divmod_1 carry, then the clip to the month length and the day
normalisation loop. -/
def calAddSub (a other : Elem) (isAdd : Bool) : Except PyErr Elem := do
  if !isDurationInst other then throw .typeError
  let op : Int → Int → Int := fun x y => if isAdd then x + y else x - y
  let sy ← attrU a .year
  let oy ← attrU other .years
  let year0 := op sy.int oy.int
  let sm ← attrU a .month
  if !sm.truthy then
    mkCalendarDate [.int year0]
  else
    let om ← attrU other .months
    let (carry, month) := divmod1 (op sm.int om.int) 12
    let year1 := year0 + carry
    let sd ← attrU a .day
    if !sd.truthy then
      mkCalendarDate [.int year1, .int month]
    else do
      let dim ← daysInMonth year1 month
      let day0 := min sd.int dim
      let od ← attrU other .days
      let day1 := op day0 od.int
      let (y2, m2, d2) ← normalizeDay 64 year1 month day1
      mkCalendarDate [.int y2, .int m2, .int d2]

/-- The result of Time.add_sub: either a Time or the TimeUnitOverflow
exception carrying the partial value and the carry. -/
inductive TimeSum where
  | val (t : Elem)
  | overflow (part : Elem) (carry : Int)
deriving Repr

/-- One step of the carry loop of Time.add_sub: a present component is
combined with the duration component and the pending carry by divmod, an
absent one resets the carry and stays absent. -/
def timeStep (op : Int → Int → Int) (x : Elem) (y : TUnit) (mdl : Int) (carry : Int) :
    Except PyErr (Int × Option Int) :=
  match x with
  | .u xt =>
      if !y.kind.isSub xt.kind then throw .assertionError
      else if xt.truthy then
        let sum := op xt.int y.int + carry
        pure (sum.ediv mdl, some (sum.emod mdl))
      else pure (0, none)
  | .r _ _ => throw .assertionError

/-- Time.add_sub (src lines 500-519): carries propagate from seconds to
minutes to hours; the offset element is passed through unchanged; a
remaining carry raises TimeUnitOverflow with the partial Time. -/
def timeAddSub (t other : Elem) (isAdd : Bool) : Except PyErr TimeSum := do
  if !isDurationInst other then throw .typeError
  match t with
  | .r _ [h, m, s, off] =>
    let op : Int → Int → Int := fun x y => if isAdd then x + y else x - y
    let ds ← attrU other .seconds
    let dm ← attrU other .minutes
    let dh ← attrU other .hours
    let (c1, zs) ← timeStep op s ds 60 0
    let (c2, zm) ← timeStep op m dm 60 c1
    let (c3, zh) ← timeStep op h dh 24 c2
    let toArg : Option Int → Arg := fun v => match v with | some n => .int n | none => .none
    let sum ← mkTime (toArg zh) (toArg zm) (toArg zs) (.elem off)
    if c3 ≠ 0 then pure (.overflow sum c3) else pure (.val sum)
  | _ => throw .attributeError

/-- isinstance(b, type(e)) for stack elements: the class of b is a
subclass of the exact class of e; units and representations never mix. -/
def instOfElem (b e : Elem) : Bool :=
  match e, b with
  | .u t, .u bt => bt.kind.isSub t.kind
  | .r rk _, .r brk _ => brk.isSub rk.cls
  | _, _ => false

/-- type(elt)(0): the zero fill of TimeRep.merge runs the constructor of
the slot class, so ordinal range checks apply (Month(0) raises).  The only
representation slot that exists, the UTC offset of a Time, is always
truthy and never reached; other nested cases are outside the model. -/
def zeroFillElem : Elem → Except PyErr Elem
  | .u t => (unitNew t.kind 0 false).map .u
  | .r rk _ =>
      if rk = .utcOffset then mkUTCOffset (.int 0) .none
      else throw (.notModelled "zero fill of a nested representation")

/-- The slot-filling walk of TimeRep.merge (src lines 291-296): replace the
first slot whose class matches b, zero-filling absent slots passed on the
way; none when no slot matches. -/
def walkMerge (b : Elem) : List Elem → Except PyErr (Option (List Elem))
  | [] => pure none
  | e :: rest =>
    if instOfElem b e then pure (some (b :: rest))
    else if e.truthy then do
      pure ((← walkMerge b rest).map (e :: ·))
    else do
      let z ← zeroFillElem e
      pure ((← walkMerge b rest).map (z :: ·))

/-- The componentwise merge of TimeRep.merge for an instance of the same
class (src lines 285-289): keep the left element where truthy, else index
the right list (IndexError if it is shorter). -/
def compWise (es bes : List Elem) : Except PyErr (List Elem) := go es 0
where
  /-- Walk with the running index into the right list. -/
  go : List Elem → Nat → Except PyErr (List Elem)
  | [], _ => pure []
  | e :: rest, i => do
    let e2 ← if e.truthy then pure e else
      match bes.get? i with
      | some be => pure be
      | none => throw .indexError
    pure (e2 :: (← go rest (i + 1)))

/-- TimeRep.merge (src lines 283-296), shared by every representation
class that does not override it and reached through super calls. -/
def timeRepMerge (k : RepKind) (es : List Elem) (b : Elem) : Except PyErr (Option Elem) :=
  match b with
  | .r bk bes =>
    if bk.isSub k.cls then do
      pure (some (.r k (← compWise es bes)))
    else do pure ((← walkMerge b es).map (.r k ·))
  | .u _ => do pure ((← walkMerge b es).map (.r k ·))

/-- isinstance(b, Time) for merge dispatch. -/
def isTimeInstance : Elem → Bool
  | .r bk _ => bk.isSub .timeC
  | .u _ => false

/-- The X | Y step inside Cardinal.merge: a merge returning None or a
falsy value surfaces NotImplemented, and the operator then raises
TypeError. -/
def orElseTypeError (o : Option Elem) : Except PyErr Elem :=
  match o with
  | some v => if v.truthy then pure v else throw .typeError
  | none => throw .typeError

/-- merge(a, b): the full method-resolution dispatch over the merge
methods of the source (TimeUnit, Year, Hour, Cardinal, Weeks, Recurrences,
TimeRep, Date, Time, DateTime, Duration, RecurringTimeInterval).  Python
None results are Option.none; exceptions raised while building the merged
value propagate.  The fuel bounds the recursion through Cardinal.merge and
DateTime.merge. -/
def mergeElems : Nat → Elem → Elem → Except PyErr (Option Elem)
  | 0, _, _ => throw (.notModelled "merge fuel exhausted")
  | fu + 1, .u ua, b =>
      -- Weeks.merge: weeks do not mix with other elements.
      if ua.kind.isSub .weeks then pure none
      -- Recurrences.merge.
      else if ua.kind = .recurrences then do
        pure (some (← mkRecurringTimeInterval [.elem (.u ua), .elem b]))
      -- Cardinal.merge: Duration() | self | other.
      else if ua.kind.isCardinalCls then do
        let d0 ← mkDuration []
        let v1 ← orElseTypeError (← mergeElems fu d0 (.u ua))
        let v2 ← orElseTypeError (← mergeElems fu v1 b)
        pure (some v2)
      -- Year.merge.
      else if ua.kind.isSub .year then
        match b with
        | .u ub =>
          if ub.kind.isSub .month then do
            pure (some (← mkCalendarDate [.elem (.u ua), .elem (.u ub)]))
          else if ub.kind.isSub .week then do
            pure (some (← mkWeekDate [.elem (.u ua), .elem (.u ub)]))
          else if ub.kind.isSub .day then do
            pure (some (← mkOrdinalDate [.elem (.u ua), .elem (.u ub)]))
          else pure none
        | .r _ _ => pure none
      -- Hour.merge: a signed hour and a minute make a UTCOffset, an
      -- unsigned pair a Time; an hour and a UTCOffset make a Time.
      else if ua.kind.isSub .hour then
        match b with
        | .u ub =>
          if ub.kind.isSub .minute then
            if ua.signed then do pure (some (← mkUTCOffset (.elem (.u ua)) (.elem (.u ub))))
            else do pure (some (← mkTime (.elem (.u ua)) (.elem (.u ub)) .none .none))
          else pure none
        | .r bk _ =>
          if bk.isSub .utcOffsetC then do
            pure (some (← mkTime (.elem (.u ua)) .none .none (.elem b)))
          else pure none
      -- TimeUnit.merge: self or other.
      else
        pure (some (if ua.truthy then .u ua else b))
  | fu + 1, .r k es, b =>
      if k = .time then
        -- Time.merge (src lines 484-492).
        match b with
        | .u ub =>
          if ub.kind.isSub .hour && ub.signed then
            match es with
            | [h, m, s, _] => do
                let off ← mkUTCOffset (.elem (.u ub)) .none
                pure (some (← mkTime (.elem h) (.elem m) (.elem s) (.elem off)))
            | _ => throw .attributeError
          else timeRepMerge .time es b
        | .r bk _ =>
          if bk.isSub .utcOffsetC then
            match es with
            | [h, m, s, _] => do
                pure (some (← mkTime (.elem h) (.elem m) (.elem s) (.elem b)))
            | _ => throw .attributeError
          else timeRepMerge .time es b
      else if k = .duration ∨ k = .weeksDuration then
        -- Duration.merge (src lines 576-585).  The TimeDuration branch is
        -- dead code: TimeDuration.__new__ only ever returns Duration
        -- instances, so isinstance(other, TimeDuration) is always false.
        match b with
        | .u ub =>
          if ub.kind.isSub .weeks then do pure (some (← mkWeeksDuration (.elem b)))
          else timeRepMerge k es b
        | .r bk _ =>
          if bk.isSub .dateTimeC then do pure (some (← mkTimeInterval [.r k es, b]))
          else timeRepMerge k es b
      else if k = .dateTime ∨ k = .timeInterval ∨ k = .recurringTimeInterval then
        -- RecurringTimeInterval.merge first when applicable, then
        -- DateTime.merge (inherited by TimeInterval), then Date.merge,
        -- then TimeRep.merge.
        let recurCase :=
          match b with
          | .r bk _ =>
              k == RepKind.recurringTimeInterval && (bk.isSub .dateTimeC || bk.isSub .durationC)
          | .u _ => false
        if recurCase then do
          pure (some (← mkRecurringTimeInterval (es.map Arg.elem ++ [Arg.elem b])))
        else
          let hmsCase :=
            match b with
            | .u ub => ub.kind.isSub .hour || ub.kind.isSub .minute || ub.kind.isSub .second
            | .r bk _ => bk.isSub .utcOffsetC
          if hmsCase then do
            let d ← (match getAttrRep 4 (.r k es) .dateC with
                    | some d => pure d
                    | none => throw .attributeError : Except PyErr Elem)
            let t ← (match getAttrRep 4 (.r k es) .timeC with
                    | some t => pure t
                    | none => throw .attributeError : Except PyErr Elem)
            let mt ← mergeElems fu t b
            let targ := match mt with | some v => Arg.elem v | none => Arg.none
            pure (some (← mkDateTime (.elem d) targ))
          else
            let intervalCase :=
              match b with
              | .r bk _ => bk.isSub .dateTimeC || bk.isSub .durationC
              | .u _ => false
            if intervalCase then do
              pure (some (← mkTimeInterval [.r k es, b]))
            else if isTimeInstance b then do
              pure (some (← mkDateTime (.elem (.r k es)) (.elem b)))
            else timeRepMerge k es b
      else if k = .calendarDate ∨ k = .ordinalDate ∨ k = .weekDate then
        -- Date.merge (src lines 359-363).
        if isTimeInstance b then do
          pure (some (← mkDateTime (.elem (.r k es)) (.elem b)))
        else timeRepMerge k es b
      else
        -- UTCOffset and UTC have no merge override.
        timeRepMerge k es b

/-- The fuel used for every concrete merge in this file; the nesting depth
of the claim values is tiny. -/
def mergeFuel : Nat := 8

/-- The combining low line U+0332 that marks unbounded element width. -/
def lowLine : Char := Char.ofNat 0x332

/-- The plus-minus sign U+00B1 that marks a signed element. -/
def pmChar : Char := Char.ofNat 0xB1

/-- The hyphen U+2010, an alternative date separator. -/
def hyphenChar : Char := Char.ofNat 0x2010

/-- The representation classes that can appear on the parser syntax stack
when compilation starts from the default initial class
RecurringTimeInterval (the only entry point the claims use). -/
inductive ClassId where
  | rti | timeCls | durCls | timeDurCls
deriving DecidableEq, Repr

/-- A value of a designator table: the UTC constant, a unit class for a
postfix coercion, a representation class to push, or None. -/
inductive DesigVal where
  | utcV | unitV (k : UnitKind) | clsV (c : ClassId) | noneV
deriving DecidableEq, Repr

/-- Modelled from the spec: the digit tables of the stack classes.  The
class-local dicts are in the source, but the SlotMerger metaclass that
merges them along the MRO lives in the slotmerger module, which is not
under src/; the merged tables follow spec section 4.5 (nearest class
wins). -/
def digitsTable : ClassId → Char → Option UnitKind
  | .rti, 'n' => some .recurrences
  | .rti, 'Y' => some .year
  | .rti, 'M' => some .month
  | .rti, 'D' => some .day
  | .rti, 'w' => some .week
  | .rti, 'h' => some .hour
  | .rti, 'm' => some .minute
  | .rti, 's' => some .second
  | .timeCls, 'h' => some .hour
  | .timeCls, 'm' => some .minute
  | .timeCls, 's' => some .second
  | .durCls, 'n' => some .timeUnit
  | .timeDurCls, 'n' => some .timeUnit
  | _, _ => none

/-- Modelled from the spec: the designator tables of the stack classes,
merged along the MRO as the digit tables are (so DateTime overrides the
T of Time, and TimeDuration overrides the M of Duration). -/
def desigTable : ClassId → Char → Option DesigVal
  | .rti, 'R' => some (.clsV .rti)
  | .rti, 'P' => some (.clsV .durCls)
  | .rti, 'T' => some (.clsV .timeCls)
  | .rti, 'W' => some .noneV
  | .rti, 'Z' => some .utcV
  | .timeCls, 'T' => some .noneV
  | .timeCls, 'Z' => some .utcV
  | .durCls, 'W' => some (.unitV .weeks)
  | .durCls, 'Y' => some (.unitV .years)
  | .durCls, 'M' => some (.unitV .months)
  | .durCls, 'D' => some (.unitV .days)
  | .durCls, 'T' => some (.clsV .timeDurCls)
  | .timeDurCls, 'H' => some (.unitV .hours)
  | .timeDurCls, 'M' => some (.unitV .minutes)
  | .timeDurCls, 'S' => some (.unitV .seconds)
  | .timeDurCls, 'W' => some (.unitV .weeks)
  | .timeDurCls, 'Y' => some (.unitV .years)
  | .timeDurCls, 'D' => some (.unitV .days)
  | .timeDurCls, 'T' => some (.clsV .timeDurCls)
  | _, _ => none

/-- Modelled from the spec: the separator tables (character to hard flag)
of the stack classes, merged along the MRO. -/
def sepTable (c : ClassId) (ch : Char) : Option Bool :=
  match c with
  | .rti =>
      if ch == '/' then some true
      else if ch == '-' || ch == hyphenChar || ch == ':' then some false
      else none
  | .timeCls => if ch == ':' then some false else none
  | _ => none

/-- A compiled format operation (fop). -/
inductive FOp where
  | sepOp (lit : String)
  | hardSepOp (lit : String)
  | predesig (lit : String) (cls : Option ClassId)
  | coerceOp (lit : String) (k : UnitKind)
  | utcdesig
  | elemOp (cls : UnitKind) (dmin : Nat) (dmax : Option Nat)
           (fmin fmax : Option Nat) (sepc : Char) (signed : Bool)
deriving DecidableEq, Repr

/-- A fresh empty instance pushed by a prefix designator in read mode. -/
def classNew : ClassId → Except PyErr Elem
  | .rti => mkRecurringTimeInterval []
  | .timeCls => mkEmptyTime
  | .durCls => mkDuration []
  | .timeDurCls => mkTimeDuration []

/-- The underscore rewriting of FormatReprParser.__init__: an underscore
before a character becomes that character followed by the combining low
line. -/
def presub : List Char → List Char
  | '_' :: c :: rest => c :: lowLine :: presub rest
  | c :: rest => c :: presub rest
  | [] => []

/-- The length of the run of copies of ch in cs starting at index i. -/
def countRun (cs : List Char) (i : Nat) (ch : Char) : Nat :=
  ((cs.drop i).takeWhile (· == ch)).length

/-- The snarf helper of FormatReprParser.element: count the following
copies of ch (scanning starts one past i), detect a trailing combining
low line, and return the run length, the repeat flag and the next index. -/
def snarfAt (cs : List Char) (i : Nat) (ch : Char) : Nat × Bool × Nat :=
  let m := countRun cs (i + 1) ch
  let j := i + 1 + m
  if cs.getD j ' ' == lowLine then (m, true, j + 1) else (m, false, j)

/-- Search the syntax stack top down for a class knowing the separator;
returns how many inner classes to pop and the hard flag. -/
def findSep : List ClassId → Char → Option (Nat × Bool)
  | [], _ => none
  | cls :: rest, c =>
    match sepTable cls c with
    | some hard => some (0, hard)
    | none => (findSep rest c).map (fun p => (p.1 + 1, p.2))

/-- FormatReprParser.parse (src lines 880-967): classify each character as
designator, separator or element, maintaining the syntax stack.  A
trailing plus-minus sign raises StopIteration inside the generator, which
Python 2 swallows, silently ending the fop stream.  The fuel dominates the
remaining input length. -/
def parseRepr : Nat → List Char → Nat → List ClassId → Except PyErr (List FOp)
  | 0, _, _, _ => throw (.notModelled "parse fuel exhausted")
  | fu + 1, cs, i, stk =>
    if i ≥ cs.length then pure []
    else
      let c := cs.getD i ' '
      match stk with
      | [] => throw .indexError
      | top :: _ =>
        match desigTable top c with
        | some .utcV => do pure (FOp.utcdesig :: (← parseRepr fu cs (i + 1) stk))
        | some (.unitV k) => do
            pure (FOp.coerceOp (String.singleton c.toUpper) k :: (← parseRepr fu cs (i + 1) stk))
        | some (.clsV cid) => do
            pure (FOp.predesig (String.singleton c.toUpper) (some cid)
                  :: (← parseRepr fu cs (i + 1) (cid :: stk)))
        | some .noneV => do
            pure (FOp.predesig (String.singleton c.toUpper) none :: (← parseRepr fu cs (i + 1) stk))
        | none =>
          match findSep stk c with
          | some (level, hard) =>
              let stk2 := stk.drop level
              let fop := if hard then FOp.hardSepOp (String.singleton c.toUpper)
                         else FOp.sepOp (String.singleton c.toUpper)
              do pure (fop :: (← parseRepr fu cs (i + 1) stk2))
          | none =>
              let (signed, i1) := if c == pmChar then (true, i + 1) else (false, i)
              if i1 ≥ cs.length then pure []
              else
                let ch := cs.getD i1 ' '
                match digitsTable top ch with
                | none => throw .keyError
                | some cls =>
                  let (m, ul, i2) := snarfAt cs i1 ch
                  let dmin := if ul then m else m + 1
                  let dmax : Option Nat := if ul then none else some dmin
                  let nxt := cs.getD i2 ' '
                  if nxt == ',' || nxt == '.' then
                    -- Fractional sub-element; the inner snarf counts runs
                    -- of the same digit letter after the separator.  (A
                    -- lone underlined fraction letter would give the
                    -- Python value -1 where Nat subtraction gives 0; no
                    -- claim format contains a fraction at all.)
                    let (fm, ful, i3) := snarfAt cs i2 ch
                    let fmin := if ful then fm - 1 else fm
                    let fmax : Option Nat := if ful then none else some fmin
                    do pure (FOp.elemOp cls dmin dmax (some fmin) fmax nxt signed
                             :: (← parseRepr fu cs i3 stk))
                  else do
                    pure (FOp.elemOp cls dmin dmax none none ',' signed
                          :: (← parseRepr fu cs i2 stk))

/-- Format.__init__ with the default initial syntax class
RecurringTimeInterval: compile a format representation to its fop list. -/
def compileRepr (s : List Char) : Except PyErr (List FOp) :=
  let cs := presub s
  parseRepr (cs.length + 1) cs 0 [ClassId.rti]

/-- The machine state of format mode: the pending-separator side stack and
the output fragment stack. -/
structure MState where
  seps : List String
  out : List String

/-- Literal.format: release one pending separator, then push the literal. -/
def pushLit (lit : String) (m : MState) : MState :=
  match m.seps.getLast? with
  | some s => ⟨m.seps.dropLast, m.out ++ [s, lit]⟩
  | none => ⟨m.seps, m.out ++ [lit]⟩

/-- Zero padding to a minimum width, as the %0*d format. -/
def padZeros (w : Nat) (s : String) : String :=
  if s.length < w then String.mk (List.replicate (w - s.length) '0') ++ s else s

/-- Truthiness of the current element slot of the format loop (None once
the element stream is exhausted). -/
def eltTruthy : Option TUnit → Bool
  | some t => t.truthy
  | none => false

/-- Element.format for an integer-valued unit: optional sign, zero-padded
digits truncated to the maximum width, and the zero fraction run when a
fraction is requested.  Returns the consumed flag and the new state. -/
def opFormat : FOp → Option TUnit → MState → Option Bool × MState
  | .sepOp lit, _, m => (some false, ⟨m.seps ++ [lit], m.out⟩)
  | .hardSepOp lit, _, m => (some false, ⟨m.seps ++ [lit], m.out⟩)
  | .predesig lit _, elt, m => if eltTruthy elt then (some false, pushLit lit m) else (none, m)
  | .coerceOp lit _, _, m => (some false, pushLit lit m)
  | .utcdesig, _, m => (some false, pushLit "Z" m)
  | .elemOp cls dmin dmax fmin _ sepc signed, elt, m =>
    match elt with
    | some t =>
      if t.truthy && t.kind.isSub cls then
        let (pend, seps2) :=
          match m.seps.getLast? with
          | some s => (s, m.seps.dropLast)
          | none => ("", m.seps)
        let v := t.int
        let signStr := if signed then (if v < 0 then "-" else "+") else ""
        let ds := padZeros dmin (Nat.repr v.natAbs)
        let ds := match dmax with | some mx => String.mk (ds.toList.take mx) | none => ds
        let fr := match fmin with
          | some fm => String.singleton sepc ++ String.mk (List.replicate fm '0')
          | none => ""
        (some true, ⟨seps2, m.out ++ [pend ++ signStr ++ ds ++ fr]⟩)
      else (none, m)
    | none => (none, m)

/-- The main loop of Format.format (src lines 984-1007): run the current
fop against the current element; a non-None result advances the fop list
(ending the loop when it is exhausted), a non-False result advances the
element stream (ending the loop when the stream marker is gone). -/
def fmtLoop : Nat → FOp → List FOp → Option TUnit → Option (List TUnit) → MState →
    Except PyErr (List String)
  | 0, _, _, _, _, _ => throw (.notModelled "format loop fuel exhausted")
  | fu + 1, op, restOps, elt, elts, m =>
    let (result, m2) := opFormat op elt m
    match result with
    | some false =>
      match restOps with
      | [] => pure m2.out
      | op2 :: rest2 => fmtLoop fu op2 rest2 elt elts m2
    | some true =>
      match restOps with
      | [] => pure m2.out
      | op2 :: rest2 =>
        match elts with
        | none => pure m2.out
        | some [] => fmtLoop fu op2 rest2 none none m2
        | some (x :: xs) => fmtLoop fu op2 rest2 (some x) (some xs) m2
    | none =>
      match elts with
      | none => pure m2.out
      | some [] => fmtLoop fu op restOps none none m2
      | some (x :: xs) => fmtLoop fu op restOps (some x) (some xs) m2

/-- Format.format (src lines 973-1008): iterate the flattened element
stream of the value against the fop list and join the pushed fragments.
An empty stream or fop list makes the initial iterator calls raise. -/
def formatValue (ops : List FOp) (v : Elem) : Except PyErr String :=
  match v.flatten with
  | [] => throw .stopIteration
  | e :: rest =>
    match ops with
    | [] => throw .stopIteration
    | op :: restOps => do
      let frags ← fmtLoop (ops.length + (v.flatten).length + 4) op restOps (some e) (some rest)
        ⟨[], []⟩
      pure (String.join frags)

/-- The machine state of read mode: the (uppercased) input, the position
and the value stack.  The Python stack grows at the end; we store it with
the most recent value first, so stack index -1 is the head and the final
bottom-up fold runs over the reversal. -/
structure RdState where
  input : List Char
  pos : Nat
  stk : List Elem

/-- Literal.read: require the input to continue with the literal. -/
def litRead (lit : String) (s : RdState) : Except PyErr RdState :=
  let l := lit.toList
  if l.isEmpty || (s.input.drop s.pos).take l.length == l then
    pure ⟨s.input, s.pos + l.length, s.stk⟩
  else throw (.stopFormat "unexpected literal")

/-- The integer value of a digit run. -/
def digitsToInt (ds : List Char) : Int :=
  ds.foldl (fun acc c => acc * 10 + ((c.toNat - '0'.toNat : Nat) : Int)) 0

/-- Coerce.read: the postfix designator classes are all cardinals, whose
constructor copies the value and sign of a unit argument after the
negativity check (an absent value compares below zero in Python 2). -/
def coerceCardinal (k : UnitKind) (top : Elem) : Except PyErr TUnit :=
  match top with
  | .u t => unitFromUnit k t
  | .r _ _ => throw .invalidTimeUnit

/-- Element.read: match the precompiled pattern (mandatory sign when the
element is signed, then a bounded greedy digit run), build a fresh unit of
the element class, and request a merge unless the element was signed. -/
def elemRead (cls : UnitKind) (dmin : Nat) (dmax : Option Nat) (fmin : Option Nat)
    (signed : Bool) (s : RdState) : Except PyErr (Bool × RdState) := do
  let rest := s.input.drop s.pos
  let (neg, body, signLen) ←
    (if signed then
      match rest with
      | c :: tl =>
        if c == '+' then pure (false, tl, 1)
        else if c == '-' then pure (true, tl, 1)
        else throw (.stopFormat "expected sign")
      | [] => throw (.stopFormat "expected sign")
    else pure (false, rest, 0) : Except PyErr (Bool × List Char × Nat))
  let run := body.takeWhile Char.isDigit
  let n := match dmax with | some mx => min run.length mx | none => run.length
  if n < dmin then throw (.stopFormat "expected digit")
  if fmin.getD 0 > 0 then throw (.notModelled "fractional element read")
  let ds := run.take n
  if ds.isEmpty then throw (.valueError "invalid literal for int")
  let mag := digitsToInt ds
  let v := if neg then -mag else mag
  let u ← unitNew cls v signed
  pure (!signed, ⟨s.input, s.pos + signLen + n, .u u :: s.stk⟩)

/-- One fop in read mode; the Bool asks the machine to try a merge. -/
def opRead (op : FOp) (s : RdState) : Except PyErr (Bool × RdState) :=
  match op with
  | .sepOp lit => do pure (false, ← litRead lit s)
  | .hardSepOp lit => do
      let s1 ← litRead lit s
      pure (false, ⟨s1.input, s1.pos, .u identityUnit :: s1.stk⟩)
  | .predesig lit cls => do
      let s1 ← litRead lit s
      match cls with
      | some c => do
          let e ← classNew c
          pure (true, ⟨s1.input, s1.pos, e :: s1.stk⟩)
      | none => pure (true, s1)
  | .coerceOp lit k => do
      let s1 ← litRead lit s
      match s1.stk with
      | [] => throw .indexError
      | top :: below => do
          let u ← coerceCardinal k top
          pure (true, ⟨s1.input, s1.pos, .u u :: below⟩)
  | .utcdesig => do
      let s1 ← litRead "Z" s
      pure (true, ⟨s1.input, s1.pos, utcConst :: s1.stk⟩)
  | .elemOp cls dmin dmax fmin _ _ signed => elemRead cls dmin dmax fmin signed s

/-- The opportunistic merge of the top two stack values after a
merge-producing fop (src lines 1016-1022); a missing second value or a
failed or falsy merge leaves the stack alone. -/
def tryMergeTop (s : RdState) : Except PyErr RdState := do
  match s.stk with
  | b :: a :: below => do
      let mr ← mergeElems mergeFuel a b
      match mr with
      | some v => if v.truthy then pure ⟨s.input, s.pos, v :: below⟩ else pure s
      | none => pure s
  | _ => pure s

/-- Run the fop list in read mode. -/
def readOps : List FOp → RdState → Except PyErr RdState
  | [], s => pure s
  | op :: rest, s => do
    let (mrg, s1) ← opRead op s
    let s2 ← if mrg then tryMergeTop s1 else pure s1
    readOps rest s2

/-- The final bottom-up fold of the stack (src lines 1025-1030); every
merge must produce a truthy value or the read aborts. -/
def foldStack : Elem → List Elem → Except PyErr Elem
  | obj, [] => pure obj
  | obj, other :: rest => do
    let mr ← mergeElems mergeFuel obj other
    match mr with
    | some v => if v.truthy then foldStack v rest else throw (.stopFormat "cannot merge elements")
    | none => throw (.stopFormat "cannot merge elements")

/-- Format.read (src lines 1010-1031): uppercase the input, run the fops
with opportunistic merging, then fold the stack. -/
def readValue (ops : List FOp) (input : String) : Except PyErr Elem := do
  let s ← readOps ops ⟨(input.toList.map Char.toUpper), 0, []⟩
  match s.stk.reverse with
  | [] => throw .indexError
  | x :: rest => foldStack x rest

/-- The repeated nn with combining low line of the duration templates. -/
def nnu : List Char := ['n', 'n', lowLine]

/-- The six precompiled duration templates of Duration.__str__ (src lines
608-614), from the full one down to PT nn S. -/
def durFormatters : List (List Char) :=
  [ ['P'] ++ nnu ++ ['Y'] ++ nnu ++ ['M'] ++ nnu ++ ['D', 'T'] ++ nnu ++ ['H'] ++ nnu ++ ['M'] ++ nnu ++ ['S']
  , ['P'] ++ nnu ++ ['M'] ++ nnu ++ ['D', 'T'] ++ nnu ++ ['H'] ++ nnu ++ ['M'] ++ nnu ++ ['S']
  , ['P'] ++ nnu ++ ['D', 'T'] ++ nnu ++ ['H'] ++ nnu ++ ['M'] ++ nnu ++ ['S']
  , ['P', 'T'] ++ nnu ++ ['H'] ++ nnu ++ ['M'] ++ nnu ++ ['S']
  , ['P', 'T'] ++ nnu ++ ['M'] ++ nnu ++ ['S']
  , ['P', 'T'] ++ nnu ++ ['S'] ]

/-- The scan of Duration.__str__ over the element list: a leading zero or
absent component has its value set to None, and the first non-zero
component selects the template.  The shallow copy of TimeRep.copy shares
the unit objects with the original, so the value assignments mutate the
operand of str as well: the Elem returned alongside the output is the
state the duration object is left in after the call. -/
def durScan : List Elem → List Elem → Nat → Except PyErr (String × Elem)
  | [], acc, _ => pure ("PT0S", .r .duration acc.reverse)
  | e :: rest, acc, i =>
    match e with
    | .u t =>
      if t.int == 0 then
        durScan rest (.u ⟨t.kind, none, t.signed⟩ :: acc) (i + 1)
      else do
        let d := Elem.r .duration (acc.reverse ++ (e :: rest))
        let ops ← compileRepr (durFormatters.getD i [])
        let out ← formatValue ops d
        pure (out, d)
    | .r _ _ => throw (.notModelled "nested representation in a duration")

/-- Duration.__str__ (src lines 598-625) for a plain Duration, returning
the rendered string together with the post-call state of the operand (the
two differ from the pre-call state exactly on the mutated leading zero
components). -/
def durationStr (d : Elem) : Except PyErr (String × Elem) :=
  match d with
  | .r .duration es => durScan es [] 0
  | _ => throw (.notModelled "standard format of a non duration")

/-! ### Values and spec-side definitions used by the claims -/

/-- A fully present Time with a given offset element, the result shape of
Time construction from ints. -/
def timeOf (h m s : Int) (off : Elem) : Elem :=
  .r .time [.u ⟨.hour, some h, false⟩, .u ⟨.minute, some m, false⟩,
            .u ⟨.second, some s, false⟩, off]

/-- A fully present Duration, the result shape of Duration construction
from ints. -/
def durOf (yv mo dd hh mm ss : Int) : Elem :=
  .r .duration [.u ⟨.years, some yv, false⟩, .u ⟨.months, some mo, false⟩,
                .u ⟨.days, some dd, false⟩, .u ⟨.hours, some hh, false⟩,
                .u ⟨.minutes, some mm, false⟩, .u ⟨.seconds, some ss, false⟩]

/-- The absent UTC offset that Time.__init__ builds from a missing offset
argument. -/
def emptyOffset : Elem :=
  .r .utcOffset [.u ⟨.hour, none, false⟩, .u ⟨.minute, none, false⟩]

/-- Follows the claim wording of C4: propagate the carry bottom up across
seconds (mod 60), minutes (mod 60) and hours (mod 24), keep the offset,
and overflow with the partial Time and the carry when one remains. -/
def c4SpecSum (h m s hh mm ss : Int) (off : Elem) : TimeSum :=
  let t1 := s + ss
  let c1 := t1.ediv 60
  let t2 := m + mm + c1
  let c2 := t2.ediv 60
  let t3 := h + hh + c2
  let c3 := t3.ediv 24
  if c3 = 0 then .val (timeOf (t3.emod 24) (t2.emod 60) (t1.emod 60) off)
  else .overflow (timeOf (t3.emod 24) (t2.emod 60) (t1.emod 60) off) c3

/-- The six cardinals of claim C6. -/
def c6Cardinals : List TUnit :=
  [⟨.years, some 1, false⟩, ⟨.months, some 2, false⟩, ⟨.days, some 15, false⟩,
   ⟨.hours, some 12, false⟩, ⟨.minutes, some 30, false⟩, ⟨.seconds, some 15, false⟩]

/-- The slot classes of a Duration in order. -/
def durSlotKind : Nat → UnitKind
  | 0 => .years
  | 1 => .months
  | 2 => .days
  | 3 => .hours
  | 4 => .minutes
  | _ => .seconds

/-- The Duration slot of a cardinal kind. -/
def slotIndex : UnitKind → Nat
  | .years => 0
  | .months => 1
  | .days => 2
  | .hours => 3
  | .minutes => 4
  | _ => 5

/-- Follows the amended claim wording of C6: the two slots hold the two
cardinals, every other slot before the later of the two holds zero, and
every slot after it is absent. -/
def c6Expected (a b : TUnit) : Elem :=
  let sa := slotIndex a.kind
  let sb := slotIndex b.kind
  .r .duration ((List.range 6).map (fun i =>
    if i = sa then .u a
    else if i = sb then .u b
    else if i < max sa sb then .u ⟨durSlotKind i, some 0, false⟩
    else .u ⟨durSlotKind i, none, false⟩))

/-- The merge of every ordered pair of distinct cardinals from the C6 set
equals (in the Python sense) the amended expected Duration. -/
def c6AllPairs : Bool :=
  c6Cardinals.all fun a => c6Cardinals.all fun b =>
    a.kind == b.kind ||
    (match mergeElems mergeFuel (.u a) (.u b) with
     | .ok (some r) => r.pyEq (c6Expected a b)
     | _ => false)

/-- Follows the original claim wording of C6 at the pair Days(15),
Hours(12): exactly the two slots filled, zero fill between them, every
other component absent. -/
def c6ClaimDaysHours : Elem :=
  .r .duration [.u ⟨.years, none, false⟩, .u ⟨.months, none, false⟩,
                .u ⟨.days, some 15, false⟩, .u ⟨.hours, some 12, false⟩,
                .u ⟨.minutes, none, false⟩, .u ⟨.seconds, none, false⟩]

/-- Modelled from the spec wording of the accuracy-reduction invariant:
after the first absent element, no element may be present (the truthy
elements form a most-significant prefix). -/
def specReductionOk (es : List Elem) : Bool :=
  (es.dropWhile Elem.truthy).all (fun e => !e.truthy)

/-! Concrete machine traces used by the claim proofs.  Direct reflexivity
on the chained machine states is prohibitively slow (the reduction re-runs
earlier steps at every use of a value), so the proofs step through
explicit intermediate states, each a literal. -/

/-- A present unit element. -/
def uv (k : UnitKind) (v : Int) : Elem := .u ⟨k, some v, false⟩

/-- An absent unit element. -/
def ua (k : UnitKind) : Elem := .u ⟨k, none, false⟩

/-- A fixed-width unsigned element fop. -/
def fopEl (k : UnitKind) (w : Nat) : FOp := .elemOp k w (some w) none none ',' false

/-- The compiled fops of YYYY-MM-DD. -/
def c1fops : List FOp :=
  [fopEl .year 4, .sepOp "-", fopEl .month 2, .sepOp "-", fopEl .day 2]

/-- CalendarDate(1985, 4, 12). -/
def cd19850412 : Elem := .r .calendarDate [uv .year 1985, uv .month 4, uv .day 12]

/-- CalendarDate(1985, 4) with the absent day, the intermediate value of
the reads. -/
def cd198504 : Elem := .r .calendarDate [uv .year 1985, uv .month 4, ua .day]

/-- The uppercased input of the C1 read. -/
def c1inp : List Char := "1985-04-12".toList.map Char.toUpper

/-- The remaining fop tails of the C2 format, most significant first. -/
def c2t8 : List FOp := [fopEl .minute 2]

/-- Tail from the signed hour on. -/
def c2t7 : List FOp := .elemOp .hour 2 (some 2) none none ',' true :: c2t8

/-- Tail from the seconds on. -/
def c2t6 : List FOp := fopEl .second 2 :: c2t7

/-- Tail from the minutes on. -/
def c2t5 : List FOp := fopEl .minute 2 :: c2t6

/-- Tail from the hours on. -/
def c2t4 : List FOp := fopEl .hour 2 :: c2t5

/-- Tail from the T designator on. -/
def c2t3 : List FOp := FOp.predesig "T" (some .timeCls) :: c2t4

/-- Tail from the day on. -/
def c2t2 : List FOp := fopEl .day 2 :: c2t3

/-- Tail from the month on. -/
def c2t1 : List FOp := fopEl .month 2 :: c2t2

/-- The compiled fops of YYYYMMDDThhmmss followed by a signed hhmm. -/
def c2fops : List FOp := fopEl .year 4 :: c2t1

/-- The uppercased input of the C2 read. -/
def c2inp : List Char := "19850412T101530+0400".toList.map Char.toUpper

/-- A Time with the given elements and an absent offset. -/
def timeNoOff (h m s : Elem) : Elem := .r .time [h, m, s, emptyOffset]

/-- The partial DateTime on the stack after the date, T and the given time
elements have been read. -/
def c2dtAt (h m s : Elem) : Elem := .r .dateTime [cd19850412, timeNoOff h m s]

/-- The signed +04 hour pushed by the signed element. -/
def c2signedHour : Elem := .u ⟨.hour, some 4, true⟩

/-- The UTCOffset merged from the signed hour and the final minute. -/
def c2offRead : Elem := .r .utcOffset [c2signedHour, uv .minute 0]

/-- The final value of the C2 read. -/
def c2final : Elem :=
  .r .dateTime [cd19850412, .r .time [uv .hour 10, uv .minute 15, uv .second 30, c2offRead]]

/-- The all-absent Duration left behind by str of the zero duration. -/
def durAllNone : Elem :=
  .r .duration [ua .years, ua .months, ua .days, ua .hours, ua .minutes, ua .seconds]

/-! ### Helper lemmas -/

@[simp]
theorem exc_bind_ok {α β : Type} (a : α) (f : α → Except PyErr β) :
    (Except.ok a : Except PyErr α) >>= f = f a := rfl

@[simp]
theorem exc_map_ok {α β : Type} (g : α → β) (a : α) :
    (Except.ok a : Except PyErr α).map g = Except.ok (g a) := rfl

@[simp]
theorem exc_pure_eq_ok {α : Type} (a : α) : (pure a : Except PyErr α) = Except.ok a := rfl

/-- One step of the read machine, used to walk a concrete read through
explicit intermediate states. -/
theorem readOps_cons (op : FOp) (ops : List FOp) (s sa sb : RdState) (mrg : Bool)
    (h1 : opRead op s = .ok (mrg, sa))
    (h2 : (if mrg then tryMergeTop sa else pure sa) = Except.ok sb) :
    readOps (op :: ops) s = readOps ops sb := by
  cases mrg with
  | false =>
      have hsa : sa = sb := by simpa using h2
      subst hsa
      simp [readOps, h1]
  | true =>
      have h2t : tryMergeTop sa = Except.ok sb := by simpa using h2
      simp [readOps, h1, h2t]

theorem inRange_of_bounds (k : UnitKind) (v lo hi : Int) (hk : k.range = (lo, some hi))
    (h1 : lo ≤ v) (h2 : v ≤ hi) (h0 : 0 ≤ v) : k.inRange v = true := by
  simp only [UnitKind.inRange, hk, Bool.and_eq_true, decide_eq_true_eq]
  omega

theorem ensureUnit_int_ord (k : UnitKind) (v : Int) (hc : k.isCardinalCls = false)
    (hr : k.inRange v = true) : ensureUnit (.int v) k = .ok (.u ⟨k, some v, false⟩) := by
  simp [ensureUnit, unitNew, hc, hr]

theorem ensureUnit_int_card (k : UnitKind) (v : Int) (hc : k.isCardinalCls = true)
    (h0 : 0 ≤ v) : ensureUnit (.int v) k = .ok (.u ⟨k, some v, false⟩) := by
  have hneg : ¬ v < 0 := by omega
  simp [ensureUnit, unitNew, hc, hneg]

theorem ensureRep_keep (k : RepKind) (es : List Elem) (hs : k.isSub .utcOffsetC = true) :
    ensureRep (.elem (.r k es)) .utcOffsetC = .ok (.r k es) := by
  simp [ensureRep, hs]

theorem int_emod_le (a b c : Int) (hb : 0 < b) (hbc : b ≤ c + 1) : a.emod b ≤ c := by
  show a % b ≤ c
  have := Int.emod_lt_of_pos a hb
  omega

theorem checkAccuracy_true_all (es : List Elem) :
    checkAccuracy true es = es.all (fun e => !e.truthy) := by
  induction es with
  | nil => rfl
  | cons e rest ih =>
      cases he : e.truthy <;> simp [checkAccuracy, he, ih]

theorem checkAccuracy_false_spec (es : List Elem) :
    checkAccuracy false es = specReductionOk es := by
  induction es with
  | nil => rfl
  | cons e rest ih =>
      cases he : e.truthy <;>
        simp [checkAccuracy, he, ih, specReductionOk, List.dropWhile, checkAccuracy_true_all]

/-! ### The claims -/

set_option maxRecDepth 8000
set_option maxHeartbeats 4000000

/-- Evaluation of the C1 format representation compilation. -/
theorem c1_compile_eval : compileRepr "YYYY-MM-DD".toList = .ok c1fops := rfl

/-- Evaluation of the CalendarDate constructor at the C1 value. -/
theorem c1_mk_eval : mkCalendarDate [.int 1985, .int 4, .int 12] = .ok cd19850412 := rfl

/-- Evaluation of the C1 format run. -/
theorem c1_format_eval : formatValue c1fops cd19850412 = .ok "1985-04-12" := rfl

/-- The C1 read walked through its intermediate machine states. -/
theorem c1_chain :
    readOps c1fops ⟨c1inp, 0, []⟩ = .ok ⟨c1inp, 10, [cd19850412]⟩ := by
  have e1 : readOps c1fops ⟨c1inp, 0, []⟩
      = readOps [.sepOp "-", fopEl .month 2, .sepOp "-", fopEl .day 2]
          ⟨c1inp, 4, [uv .year 1985]⟩ :=
    readOps_cons _ _ _ ⟨c1inp, 4, [uv .year 1985]⟩ _ true (by rfl) (by rfl)
  have e2 : readOps [.sepOp "-", fopEl .month 2, .sepOp "-", fopEl .day 2]
        ⟨c1inp, 4, [uv .year 1985]⟩
      = readOps [fopEl .month 2, .sepOp "-", fopEl .day 2] ⟨c1inp, 5, [uv .year 1985]⟩ :=
    readOps_cons _ _ _ ⟨c1inp, 5, [uv .year 1985]⟩ _ false (by rfl) (by rfl)
  have e3 : readOps [fopEl .month 2, .sepOp "-", fopEl .day 2] ⟨c1inp, 5, [uv .year 1985]⟩
      = readOps [.sepOp "-", fopEl .day 2] ⟨c1inp, 7, [cd198504]⟩ :=
    readOps_cons _ _ _ ⟨c1inp, 7, [uv .month 4, uv .year 1985]⟩ _ true (by rfl) (by rfl)
  have e4 : readOps [.sepOp "-", fopEl .day 2] ⟨c1inp, 7, [cd198504]⟩
      = readOps [fopEl .day 2] ⟨c1inp, 8, [cd198504]⟩ :=
    readOps_cons _ _ _ ⟨c1inp, 8, [cd198504]⟩ _ false (by rfl) (by rfl)
  have e5 : readOps [fopEl .day 2] ⟨c1inp, 8, [cd198504]⟩
      = readOps [] ⟨c1inp, 10, [cd19850412]⟩ :=
    readOps_cons _ _ _ ⟨c1inp, 10, [uv .day 12, cd198504]⟩ _ true (by rfl) (by rfl)
  exact e1.trans (e2.trans (e3.trans (e4.trans (e5.trans rfl))))

/-- Evaluation of the C1 read. -/
theorem c1_read_eval : readValue c1fops "1985-04-12" = .ok cd19850412 := by
  unfold readValue
  rw [show (RdState.mk ("1985-04-12".toList.map Char.toUpper) 0 []) = ⟨c1inp, 0, []⟩ from rfl,
    c1_chain]
  rfl

/-- C1: for the canonical pair repr = YYYY-MM-DD, value =
CalendarDate(1985,4,12) and s = 1985-04-12, the format of the value is s,
reading back the formatted string yields a value Python-equal to the
value, and formatting the value read from s yields s again. -/
theorem C1_calendar_date_roundtrip :
    (do formatValue (← compileRepr "YYYY-MM-DD".toList)
          (← mkCalendarDate [.int 1985, .int 4, .int 12])) = Except.ok "1985-04-12"
    ∧ (do let f ← compileRepr "YYYY-MM-DD".toList
          let v ← mkCalendarDate [.int 1985, .int 4, .int 12]
          let s ← formatValue f v
          pure (Elem.pyEq (← readValue f s) v)) = Except.ok true
    ∧ (do let f ← compileRepr "YYYY-MM-DD".toList
          formatValue f (← readValue f "1985-04-12")) = Except.ok "1985-04-12" := by
  refine ⟨?_, ?_, ?_⟩
  · rw [c1_compile_eval]; simp only [exc_bind_ok]
    rw [c1_mk_eval]; simp only [exc_bind_ok]
    exact c1_format_eval
  · rw [c1_compile_eval]; simp only [exc_bind_ok]
    rw [c1_mk_eval]; simp only [exc_bind_ok]
    rw [c1_format_eval]; simp only [exc_bind_ok]
    rw [c1_read_eval]; simp only [exc_bind_ok]
    rfl
  · rw [c1_compile_eval]; simp only [exc_bind_ok]
    rw [c1_read_eval]; simp only [exc_bind_ok]
    exact c1_format_eval

/-- Evaluation of the C2 format representation compilation. -/
theorem c2_compile_eval :
    compileRepr ("YYYYMMDDThhmmss".toList ++ [pmChar] ++ "hhmm".toList) = .ok c2fops := rfl

/-- The C2 read walked through its intermediate machine states: the date
elements merge into a CalendarDate, the T designator opens an empty Time
that merges into a DateTime, the time elements fill it, and the signed
hour is left unmerged until the final minute turns it into a UTCOffset. -/
theorem c2_chain :
    readOps c2fops ⟨c2inp, 0, []⟩
      = .ok ⟨c2inp, 20, [c2offRead, c2dtAt (uv .hour 10) (uv .minute 15) (uv .second 30)]⟩ := by
  have e1 : readOps c2fops ⟨c2inp, 0, []⟩ = readOps c2t1 ⟨c2inp, 4, [uv .year 1985]⟩ :=
    readOps_cons _ _ _ ⟨c2inp, 4, [uv .year 1985]⟩ _ true (by rfl) (by rfl)
  have e2 : readOps c2t1 ⟨c2inp, 4, [uv .year 1985]⟩
      = readOps c2t2 ⟨c2inp, 6, [cd198504]⟩ :=
    readOps_cons _ _ _ ⟨c2inp, 6, [uv .month 4, uv .year 1985]⟩ _ true (by rfl) (by rfl)
  have e3 : readOps c2t2 ⟨c2inp, 6, [cd198504]⟩
      = readOps c2t3 ⟨c2inp, 8, [cd19850412]⟩ :=
    readOps_cons _ _ _ ⟨c2inp, 8, [uv .day 12, cd198504]⟩ _ true (by rfl) (by rfl)
  have e4 : readOps c2t3 ⟨c2inp, 8, [cd19850412]⟩
      = readOps c2t4 ⟨c2inp, 9, [c2dtAt (ua .hour) (ua .minute) (ua .second)]⟩ :=
    readOps_cons _ _ _
      ⟨c2inp, 9, [timeNoOff (ua .hour) (ua .minute) (ua .second), cd19850412]⟩ _ true
      (by rfl) (by rfl)
  have e5 : readOps c2t4 ⟨c2inp, 9, [c2dtAt (ua .hour) (ua .minute) (ua .second)]⟩
      = readOps c2t5 ⟨c2inp, 11, [c2dtAt (uv .hour 10) (ua .minute) (ua .second)]⟩ :=
    readOps_cons _ _ _
      ⟨c2inp, 11, [uv .hour 10, c2dtAt (ua .hour) (ua .minute) (ua .second)]⟩ _ true
      (by rfl) (by rfl)
  have e6 : readOps c2t5 ⟨c2inp, 11, [c2dtAt (uv .hour 10) (ua .minute) (ua .second)]⟩
      = readOps c2t6 ⟨c2inp, 13, [c2dtAt (uv .hour 10) (uv .minute 15) (ua .second)]⟩ :=
    readOps_cons _ _ _
      ⟨c2inp, 13, [uv .minute 15, c2dtAt (uv .hour 10) (ua .minute) (ua .second)]⟩ _ true
      (by rfl) (by rfl)
  have e7 : readOps c2t6 ⟨c2inp, 13, [c2dtAt (uv .hour 10) (uv .minute 15) (ua .second)]⟩
      = readOps c2t7
          ⟨c2inp, 15, [c2dtAt (uv .hour 10) (uv .minute 15) (uv .second 30)]⟩ :=
    readOps_cons _ _ _
      ⟨c2inp, 15, [uv .second 30, c2dtAt (uv .hour 10) (uv .minute 15) (ua .second)]⟩ _ true
      (by rfl) (by rfl)
  have e8 : readOps c2t7 ⟨c2inp, 15, [c2dtAt (uv .hour 10) (uv .minute 15) (uv .second 30)]⟩
      = readOps c2t8
          ⟨c2inp, 18, [c2signedHour, c2dtAt (uv .hour 10) (uv .minute 15) (uv .second 30)]⟩ :=
    readOps_cons _ _ _
      ⟨c2inp, 18, [c2signedHour, c2dtAt (uv .hour 10) (uv .minute 15) (uv .second 30)]⟩ _
      false (by rfl) (by rfl)
  have e9 : readOps c2t8
        ⟨c2inp, 18, [c2signedHour, c2dtAt (uv .hour 10) (uv .minute 15) (uv .second 30)]⟩
      = readOps []
          ⟨c2inp, 20, [c2offRead, c2dtAt (uv .hour 10) (uv .minute 15) (uv .second 30)]⟩ :=
    readOps_cons _ _ _
      ⟨c2inp, 20,
        [uv .minute 0, c2signedHour, c2dtAt (uv .hour 10) (uv .minute 15) (uv .second 30)]⟩ _
      true (by rfl) (by rfl)
  exact e1.trans (e2.trans (e3.trans (e4.trans (e5.trans
    (e6.trans (e7.trans (e8.trans (e9.trans rfl))))))))

/-- Evaluation of the C2 read: the final stack folds bottom-up, merging
the DateTime with the UTCOffset. -/
theorem c2_read_eval : readValue c2fops "19850412T101530+0400" = .ok c2final := by
  unfold readValue
  rw [show (RdState.mk ("19850412T101530+0400".toList.map Char.toUpper) 0 [])
        = ⟨c2inp, 0, []⟩ from rfl, c2_chain]
  rfl

/-- C2: reading 19850412T101530+0400 with the format representation
YYYYMMDDThhmmss(plus-minus)hhmm yields a value Python-equal to
DateTime(CalendarDate(1985,4,12), Time(10,15,30, UTCOffset(4,0))), and the
merge of a signed Hour with a following Minute is a UTCOffset, not a
Time. -/
theorem C2_datetime_read :
    (do let f ← compileRepr ("YYYYMMDDThhmmss".toList ++ [pmChar] ++ "hhmm".toList)
        let v ← readValue f "19850412T101530+0400"
        let cd ← mkCalendarDate [.int 1985, .int 4, .int 12]
        let off ← mkUTCOffset (.int 4) (.int 0)
        let t ← mkTime (.int 10) (.int 15) (.int 30) (.elem off)
        let dt ← mkDateTime (.elem cd) (.elem t)
        pure (Elem.pyEq v dt)) = Except.ok true
    ∧ mergeElems mergeFuel (.u ⟨.hour, some 4, true⟩) (.u ⟨.minute, some 0, false⟩)
        = Except.ok (some (.r .utcOffset
            [.u ⟨.hour, some 4, true⟩, .u ⟨.minute, some 0, false⟩])) := by
  refine ⟨?_, rfl⟩
  rw [c2_compile_eval]; simp only [exc_bind_ok]
  rw [c2_read_eval]; simp only [exc_bind_ok]
  rfl

/-- C3: adding Duration(0,1) to CalendarDate(1983,1,31) clips the day to
the 28 days of February 1983, and to CalendarDate(1984,1,31) to the 29
days of leap February 1984 (equality both structurally and in the Python
sense). -/
theorem C3_month_addition_clips :
    ((do let x ← mkCalendarDate [.int 1983, .int 1, .int 31]
         let d ← mkDuration [.int 0, .int 1]
         calAddSub x d true) : Except PyErr Elem)
      = mkCalendarDate [.int 1983, .int 2, .int 28]
    ∧ ((do let x ← mkCalendarDate [.int 1984, .int 1, .int 31]
           let d ← mkDuration [.int 0, .int 1]
           calAddSub x d true) : Except PyErr Elem)
      = mkCalendarDate [.int 1984, .int 2, .int 29]
    ∧ (do let x ← mkCalendarDate [.int 1983, .int 1, .int 31]
          let d ← mkDuration [.int 0, .int 1]
          let a ← calAddSub x d true
          let b ← mkCalendarDate [.int 1983, .int 2, .int 28]
          pure (Elem.pyEq a b)) = Except.ok true
    ∧ (do let x ← mkCalendarDate [.int 1984, .int 1, .int 31]
          let d ← mkDuration [.int 0, .int 1]
          let a ← calAddSub x d true
          let b ← mkCalendarDate [.int 1984, .int 2, .int 29]
          pure (Elem.pyEq a b)) = Except.ok true :=
  ⟨rfl, rfl, rfl, rfl⟩

/-- C4: Time plus Duration propagates the carry bottom-up (seconds mod 60,
minutes mod 60, hours mod 24), keeps the UTC offset element untouched, and
raises TimeUnitOverflow with the partial Time and the remaining carry when
one survives past the hours; in particular Time(23,20,50) plus
TimeDuration(0,39,10) overflows with partial Time(0,0,0) and carry 1. -/
theorem C4_time_addition_carry :
    (∀ (h m s yv mo dd hh mm ss : Int) (ko : RepKind) (oes : List Elem),
      ko.isSub .utcOffsetC = true →
      0 ≤ h → h ≤ 24 → 0 ≤ m → m ≤ 59 → 0 ≤ s → s ≤ 60 →
      0 ≤ yv → 0 ≤ mo → 0 ≤ dd → 0 ≤ hh → 0 ≤ mm → 0 ≤ ss →
      mkTime (.int h) (.int m) (.int s) (.elem (.r ko oes)) = .ok (timeOf h m s (.r ko oes))
      ∧ mkDuration [.int yv, .int mo, .int dd, .int hh, .int mm, .int ss]
          = .ok (durOf yv mo dd hh mm ss)
      ∧ timeAddSub (timeOf h m s (.r ko oes)) (durOf yv mo dd hh mm ss) true
          = .ok (c4SpecSum h m s hh mm ss (.r ko oes)))
    ∧ ((do let off ← mkUTCOffset .none .none
           let t ← mkTime (.int 23) (.int 20) (.int 50) (.elem off)
           let d ← mkTimeDuration [.int 0, .int 39, .int 10]
           timeAddSub t d true) : Except PyErr TimeSum)
        = Except.ok (.overflow (timeOf 0 0 0 emptyOffset) 1) := by
  constructor
  · intro h m s yv mo dd hh mm ss ko oes hko h0 h24 m0 m59 s0 s60 hy hmo hdd hhh hmm2 hss
    have eo : ensureRep (.elem (.r ko oes)) .utcOffsetC = .ok (.r ko oes) :=
      ensureRep_keep _ _ hko
    have hmk : ∀ a b c : Int, 0 ≤ a → a ≤ 24 → 0 ≤ b → b ≤ 59 → 0 ≤ c → c ≤ 60 →
        mkTime (.int a) (.int b) (.int c) (.elem (.r ko oes))
          = .ok (timeOf a b c (.r ko oes)) := by
      intro a b c ha0 ha1 hb0 hb1 hc0 hc1
      have ea := ensureUnit_int_ord .hour a rfl (inRange_of_bounds _ _ 0 24 rfl ha0 ha1 ha0)
      have eb := ensureUnit_int_ord .minute b rfl (inRange_of_bounds _ _ 0 59 rfl hb0 hb1 hb0)
      have ec := ensureUnit_int_ord .second c rfl (inRange_of_bounds _ _ 0 60 rfl hc0 hc1 hc0)
      unfold mkTime
      rw [ea, eb, ec, eo]
      rfl
    refine ⟨hmk h m s h0 h24 m0 m59 s0 s60, ?_, ?_⟩
    · have e1 := ensureUnit_int_card .years yv rfl hy
      have e2 := ensureUnit_int_card .months mo rfl hmo
      have e3 := ensureUnit_int_card .days dd rfl hdd
      have e4 := ensureUnit_int_card .hours hh rfl hhh
      have e5 := ensureUnit_int_card .minutes mm rfl hmm2
      have e6 := ensureUnit_int_card .seconds ss rfl hss
      have hgo : mkCalendarDate.go
            [.int yv, .int mo, .int dd, .int hh, .int mm, .int ss]
            [UnitKind.years, .months, .days, .hours, .minutes, .seconds]
          = .ok [uv .years yv, uv .months mo, uv .days dd,
                 uv .hours hh, uv .minutes mm, uv .seconds ss] := by
        simp only [mkCalendarDate.go, e1, e2, e3, e4, e5, e6, exc_bind_ok]
        rfl
      unfold mkDuration
      rw [hgo]
      rfl
    · have key : timeAddSub (timeOf h m s (.r ko oes)) (durOf yv mo dd hh mm ss) true
          = (do
              let sum ← mkTime
                (.int ((h + hh + ((m + mm + ((s + ss + 0).ediv 60)).ediv 60)).emod 24))
                (.int ((m + mm + ((s + ss + 0).ediv 60)).emod 60))
                (.int ((s + ss + 0).emod 60))
                (.elem (.r ko oes))
              if ((h + hh + ((m + mm + ((s + ss + 0).ediv 60)).ediv 60)).ediv 24) ≠ 0 then
                pure (.overflow sum
                  ((h + hh + ((m + mm + ((s + ss + 0).ediv 60)).ediv 60)).ediv 24))
              else pure (.val sum)) := rfl
      rw [key, hmk ((h + hh + ((m + mm + ((s + ss + 0).ediv 60)).ediv 60)).emod 24)
        ((m + mm + ((s + ss + 0).ediv 60)).emod 60) ((s + ss + 0).emod 60)
        (Int.emod_nonneg _ (by norm_num))
        (int_emod_le _ 24 24 (by norm_num) (by norm_num))
        (Int.emod_nonneg _ (by norm_num))
        (int_emod_le _ 60 59 (by norm_num) (by norm_num))
        (Int.emod_nonneg _ (by norm_num))
        (int_emod_le _ 60 60 (by norm_num) (by norm_num))]
      simp only [exc_bind_ok, c4SpecSum, add_zero]
      by_cases hc : (h + hh + (m + mm + (s + ss).ediv 60).ediv 60).ediv 24 = 0 <;>
        simp [hc]
  · rfl

/-- C4 witness: the general statement applied at Time(23,20,50) with an
absent offset and the duration with 39 minutes and 10 seconds. -/
theorem C4_time_addition_carry_witness :
    mkTime (.int 23) (.int 20) (.int 50) (.elem (.r .utcOffset [ua .hour, ua .minute]))
      = .ok (timeOf 23 20 50 (.r .utcOffset [ua .hour, ua .minute]))
    ∧ mkDuration [.int 0, .int 0, .int 0, .int 0, .int 39, .int 10]
        = .ok (durOf 0 0 0 0 39 10)
    ∧ timeAddSub (timeOf 23 20 50 (.r .utcOffset [ua .hour, ua .minute]))
        (durOf 0 0 0 0 39 10) true
        = .ok (c4SpecSum 23 20 50 0 39 10 (.r .utcOffset [ua .hour, ua .minute])) :=
  C4_time_addition_carry.1 23 20 50 0 0 0 0 39 10 .utcOffset [ua .hour, ua .minute]
    rfl (by decide) (by decide) (by decide) (by decide) (by decide) (by decide)
    (by decide) (by decide) (by decide) (by decide) (by decide) (by decide)

/-- C5: the standard rendering of a Duration elides leading zero
components through the six templates: the all-zero duration renders as
PT0S, and each position of the first non-zero component selects its
template, as on Duration(0,2,15,12,30,0). -/
theorem C5_duration_standard_rendering :
    (do pure (← durationStr (← mkDuration
      [.int 0, .int 0, .int 0, .int 0, .int 0, .int 0])).fst) = Except.ok "PT0S"
    ∧ (do pure (← durationStr (← mkDuration
      [.int 0, .int 2, .int 15, .int 12, .int 30, .int 0])).fst) = Except.ok "P2M15DT12H30M0S"
    ∧ (do pure (← durationStr (← mkDuration
      [.int 1, .int 2, .int 15, .int 12, .int 30, .int 0])).fst) = Except.ok "P1Y2M15DT12H30M0S"
    ∧ (do pure (← durationStr (← mkDuration
      [.int 0, .int 0, .int 15, .int 12, .int 30, .int 0])).fst) = Except.ok "P15DT12H30M0S"
    ∧ (do pure (← durationStr (← mkDuration
      [.int 0, .int 0, .int 0, .int 12, .int 30, .int 0])).fst) = Except.ok "PT12H30M0S"
    ∧ (do pure (← durationStr (← mkDuration
      [.int 0, .int 0, .int 0, .int 0, .int 30, .int 0])).fst) = Except.ok "PT30M0S"
    ∧ (do pure (← durationStr (← mkDuration
      [.int 0, .int 0, .int 0, .int 0, .int 0, .int 45])).fst) = Except.ok "PT45S" :=
  ⟨rfl, rfl, rfl, rfl, rfl, rfl, rfl⟩

/-- C6 counterexample: Days(15) | Hours(12) evaluates to the Duration
(0, 0, 15, 12, absent, absent) with present zeros in the years and months
slots, which is not Python-equal to the Duration the claim describes
(absent outside the two slots, zero only between them). -/
theorem C6_counterexample_days_hours :
    mergeElems mergeFuel (.u ⟨.days, some 15, false⟩) (.u ⟨.hours, some 12, false⟩)
      = Except.ok (some (.r .duration
          [.u ⟨.years, some 0, false⟩, .u ⟨.months, some 0, false⟩,
           .u ⟨.days, some 15, false⟩, .u ⟨.hours, some 12, false⟩,
           .u ⟨.minutes, none, false⟩, .u ⟨.seconds, none, false⟩]))
    ∧ Elem.pyEq
        (.r .duration
          [.u ⟨.years, some 0, false⟩, .u ⟨.months, some 0, false⟩,
           .u ⟨.days, some 15, false⟩, .u ⟨.hours, some 12, false⟩,
           .u ⟨.minutes, none, false⟩, .u ⟨.seconds, none, false⟩])
        c6ClaimDaysHours = false :=
  ⟨rfl, rfl⟩

/-- C6 (amended): for any two cardinals of distinct kinds from the listed
set, the merge yields a Duration holding the two values in their slots,
zero in every other slot up to the later of the two, and absent components
after it. -/
theorem C6_cardinal_merge_amended : c6AllPairs = true := rfl

/-- C7 counterexample: Weeks(4) | Days(3) does not yield a WeeksDuration:
Weeks.merge returns the failure sentinel (None), so no value at all is
produced. -/
theorem C7_counterexample_weeks_days :
    ¬ ∃ r : Elem,
      mergeElems mergeFuel (.u ⟨.weeks, some 4, false⟩) (.u ⟨.days, some 3, false⟩)
        = Except.ok (some r) := by
  rintro ⟨r, h⟩
  rw [show mergeElems mergeFuel (.u ⟨.weeks, some 4, false⟩) (.u ⟨.days, some 3, false⟩)
        = Except.ok none from rfl] at h
  simp at h

/-- C7 (amended): a merge with a Weeks cardinal on the left always fails
(Weeks.merge returns None for every right operand); a WeeksDuration arises
instead from merging with the Weeks on the right of a Duration, as
Duration.merge does. -/
theorem C7_weeks_never_merge :
    (∀ (fu : Nat) (w : TUnit) (x : Elem), w.kind = .weeks →
        mergeElems (fu + 1) (.u w) x = Except.ok none)
    ∧ (do mergeElems mergeFuel (← mkDuration []) (.u ⟨.weeks, some 4, false⟩))
        = Except.ok (some (.r .weeksDuration [.u ⟨.weeks, some 4, false⟩])) := by
  constructor
  · intro fu w x hk
    obtain ⟨kw, vw, sw⟩ := w
    cases hk
    rfl
  · rfl

/-- C7 witness: the general part at Weeks(4) and Days(3). -/
theorem C7_weeks_never_merge_witness :
    mergeElems 1 (.u ⟨.weeks, some 4, false⟩) (.u ⟨.days, some 3, false⟩) = Except.ok none :=
  C7_weeks_never_merge.1 0 ⟨.weeks, some 4, false⟩ (.u ⟨.days, some 3, false⟩) rfl

/-- C8: the construction-time accuracy check accepts exactly the element
tuples whose present elements form a most-significant prefix; Time
excludes its offset slot from the check, so Time(23, absent, 50) raises
ValueError while Time(23, 20, absent, UTCOffset(4,0)) is accepted. -/
theorem C8_accuracy_reduction :
    (∀ es : List Elem, checkAccuracy false es = specReductionOk es)
    ∧ mkTime (.int 23) .none (.int 50) .none
        = Except.error (.valueError "invalid date time accuracy reduction")
    ∧ (do mkTime (.int 23) (.int 20) .none (.elem (← mkUTCOffset (.int 4) (.int 0))))
        = Except.ok (.r .time
            [.u ⟨.hour, some 23, false⟩, .u ⟨.minute, some 20, false⟩,
             .u ⟨.second, none, false⟩,
             .r .utcOffset [.u ⟨.hour, some 4, false⟩, .u ⟨.minute, some 0, false⟩]]) :=
  ⟨checkAccuracy_false_spec, rfl, rfl⟩

/-- C9: str on Duration(0,2,15,12,30,0) returns the right string but does
not leave the operand equal to its prior state: the shallow copy in
Duration.__str__ shares the unit objects, so the leading zero Years
component of the operand itself is set to the absent value, and the
post-call duration is no longer Python-equal to the pre-call one. -/
theorem C9_duration_str_mutates_operand :
    (do let d ← mkDuration [.int 0, .int 2, .int 15, .int 12, .int 30, .int 0]
        let p ← durationStr d
        pure (p.fst, Elem.pyEq p.snd d)) = Except.ok ("P2M15DT12H30M0S", false) := rfl

/-- C10: days_in_month returns the tabulated lengths, 31 for months
1,3,5,8,10,12, 30 for months 4,6,7,9,11 (July included), and 28 or 29 for
February according to leap_year; calendar arithmetic therefore carries at
day 30 across a July boundary, as on 2023-07-30 plus one day. -/
theorem C10_days_in_month_table :
    (∀ y : Int,
      daysInMonth y 1 = Except.ok 31
      ∧ daysInMonth y 2 = Except.ok (if leapYear y then 29 else 28)
      ∧ daysInMonth y 3 = Except.ok 31
      ∧ daysInMonth y 4 = Except.ok 30
      ∧ daysInMonth y 5 = Except.ok 31
      ∧ daysInMonth y 6 = Except.ok 30
      ∧ daysInMonth y 7 = Except.ok 30
      ∧ daysInMonth y 8 = Except.ok 31
      ∧ daysInMonth y 9 = Except.ok 30
      ∧ daysInMonth y 10 = Except.ok 31
      ∧ daysInMonth y 11 = Except.ok 30
      ∧ daysInMonth y 12 = Except.ok 31)
    ∧ ((do let x ← mkCalendarDate [.int 2023, .int 7, .int 30]
           let d ← mkDuration [.int 0, .int 0, .int 1]
           calAddSub x d true) : Except PyErr Elem)
        = mkCalendarDate [.int 2023, .int 8, .int 1] := by
  refine ⟨fun y => ?_, rfl⟩
  cases h : leapYear y <;>
    simp [daysInMonth, h, leapDaysTable, normalDaysTable]

end Iso8601
